import Mathlib

/-!
Verification of the client-side conversational shopping assistant
(frontend chat interface, response-to-part parser, and part-card
field derivation). Strings are modelled as lists of characters;
the JavaScript string operations used by the code (split, trim,
includes, replace-first, and the two regular expressions) are
embedded as executable functions below.
-/

namespace PartSelect

/-- Characters treated as whitespace by the JavaScript trim and by
the regex character class for whitespace (ASCII portion). -/
def jsWhite (c : Char) : Bool :=
  c == ' ' || c == '\t' || c == '\n' || c == '\r' ||
  c == Char.ofNat 11 || c == Char.ofNat 12

/-- JavaScript String.prototype.trim on a character list. -/
def trimChars (l : List Char) : List Char :=
  ((l.dropWhile jsWhite).reverse.dropWhile jsWhite).reverse

/-- Boolean list-of-characters predicate: the first list is a leading
segment of the second. -/
def isPrefixOfChars : List Char → List Char → Bool
  | [], _ => true
  | _ :: _, [] => false
  | a :: as, b :: bs => a == b && isPrefixOfChars as bs

/-- JavaScript String.prototype.includes: the needle occurs somewhere
in the haystack. -/
def containsSub (needle : List Char) : List Char → Bool
  | [] => isPrefixOfChars needle []
  | c :: rest => isPrefixOfChars needle (c :: rest) || containsSub needle rest

/-- JavaScript String.prototype.split with a one-character separator:
every occurrence splits, empty segments are kept. -/
def splitOnChar (sep : Char) : List Char → List (List Char)
  | [] => [[]]
  | c :: rest =>
    match splitOnChar sep rest with
    | [] => [[]]
    | h :: t => if c == sep then [] :: h :: t else (c :: h) :: t

/-- JavaScript String.prototype.replace with a plain-string pattern:
only the first occurrence of the needle is replaced. -/
def replaceFirst (needle repl : List Char) : List Char → List Char
  | [] => []
  | c :: rest =>
    if isPrefixOfChars needle (c :: rest) then
      repl ++ (c :: rest).drop needle.length
    else
      c :: replaceFirst needle repl rest

/-- Tail of the title regex after the lazily matched name group: a
nonempty whitespace run, an opening parenthesis, a nonempty run of
characters other than the closing parenthesis (the identifier group),
the closing parenthesis, then only whitespace to the end of the line. -/
def titleTail (l : List Char) : Option (List Char) :=
  if (l.takeWhile jsWhite).isEmpty then none
  else
    match l.dropWhile jsWhite with
    | '(' :: r2 =>
      match r2.dropWhile (fun c => c != ')') with
      | ')' :: tail =>
        if (r2.takeWhile (fun c => c != ')')).isEmpty then none
        else if tail.all jsWhite then some (r2.takeWhile (fun c => c != ')'))
        else none
      | _ => none
    | _ => none

/-- Backtracking search for the title regex: the name group is lazy, so
the shortest nonempty leading segment admitting a valid tail wins. -/
def titleMatchAux : List Char → List Char → Option (List Char × List Char)
  | _, [] => none
  | accA, c :: rest =>
    match titleTail rest with
    | some b => some (accA ++ [c], b)
    | none => titleMatchAux (accA ++ [c]) rest

/-- The title regex of the parser, anchored at both ends: a name group,
whitespace, a parenthesised identifier group, optional trailing
whitespace. Returns the two captured groups on a match. -/
def titleMatch (l : List Char) : Option (List Char × List Char) :=
  titleMatchAux [] l

def dollarStr : List Char := ['$']

def productPageStr : List Char := ("Product Page:").data

def installationStr : List Char := ("Installation:").data

def httpsStr : List Char := ("https://").data

def installationVideoStr : List Char := ("Installation Video:").data

def notAvailableStr : List Char := ("[Not Available]").data

def partselectStr : List Char := ("partselect.com").data

/-- A structured product entity recovered from one assistant message:
name, part number, and the raw detail lines retained for it. -/
structure ParsedPart where
  name : List Char
  partNumber : List Char
  details : List (List Char)
deriving DecidableEq

/-- The filter deciding whether a non-title line is retained as a
detail line of the open entity. -/
def detailPred (line : List Char) : Bool :=
  containsSub dollarStr line || containsSub productPageStr line ||
  containsSub installationStr line || containsSub httpsStr line

/-- Title classification at a position of the line list: the trimmed
line matches the title regex and the immediately following raw line
of the split (untrimmed) contains a dollar character. -/
def isTitleHere (line : List Char) (rest : List (List Char)) :
    Option (List Char × List Char) :=
  match titleMatch line, rest with
  | some g, next :: _ => if containsSub dollarStr next then some g else none
  | _, _ => none

/-- Mutable state of the parsing loop: flushed entities, the open
entity, the leading free text, and the intro flag. -/
structure ParseState where
  parts : List ParsedPart
  currentPart : Option ParsedPart
  introText : List Char
  isIntro : Bool
deriving DecidableEq

def flushCur : Option ParsedPart → List ParsedPart
  | some p => [p]
  | none => []

/-- All entities of a parse state, the open one flushed last. -/
def flushParts (st : ParseState) : List ParsedPart :=
  st.parts ++ flushCur st.currentPart

/-- The per-line loop of the parser: skip blank lines; on a title
open a new entity (flushing the open one); otherwise retain the line
as a detail of the open entity when the detail filter accepts it, or
accumulate it as intro text while no title has ever matched. -/
def partListLoop : List (List Char) → ParseState → ParseState
  | [], st => st
  | rawLine :: rest, st =>
    if (trimChars rawLine).isEmpty then partListLoop rest st
    else
      match isTitleHere (trimChars rawLine) rest with
      | some g =>
        partListLoop rest
          ⟨st.parts ++ flushCur st.currentPart,
           some ⟨trimChars g.1, trimChars g.2, []⟩, st.introText, false⟩
      | none =>
        match st.currentPart with
        | some p =>
          if detailPred (trimChars rawLine) then
            partListLoop rest
              ⟨st.parts, some ⟨p.name, p.partNumber, p.details ++ [trimChars rawLine]⟩,
               st.introText, st.isIntro⟩
          else partListLoop rest st
        | none =>
          if st.isIntro then
            partListLoop rest
              ⟨st.parts, none, st.introText ++ trimChars rawLine ++ ['\n'], st.isIntro⟩
          else partListLoop rest st

/-- The full parser of one assistant message: split on newlines, run
the loop, flush the still-open entity. Returns the entity list and
the accumulated leading text. -/
def parsePartList (content : List Char) : List ParsedPart × List Char :=
  let st := partListLoop (splitOnChar '\n' content) ⟨[], none, [], true⟩
  (flushParts st, st.introText)

/-- The unanchored money regex: the first dollar sign followed by at
least one digit or dot, with the run of digits and dots maximal. -/
def dollarAmount : List Char → Option (List Char)
  | [] => none
  | c :: rest =>
    if c == '$' then
      if (rest.takeWhile (fun x => x.isDigit || x == '.')).isEmpty then
        dollarAmount rest
      else
        some ('$' :: rest.takeWhile (fun x => x.isDigit || x == '.'))
    else dollarAmount rest

/-- Derived price: the first detail line containing a dollar sign,
searched for a money amount. -/
def price (part : ParsedPart) : Option (List Char) :=
  match part.details.find? (fun d => containsSub dollarStr d) with
  | some d => dollarAmount d
  | none => none

/-- The pipe split of the first detail line containing a pipe. -/
def brandSplit (part : ParsedPart) : Option (List (List Char)) :=
  (part.details.find? (fun d => containsSub ['|'] d)).map (splitOnChar '|')

/-- Derived brand: second field of the pipe split, trimmed. -/
def brand (part : ParsedPart) : Option (List Char) :=
  (brandSplit part).bind (fun m => m[1]?.map trimChars)

/-- Derived availability: third field of the pipe split, trimmed. -/
def availability (part : ParsedPart) : Option (List Char) :=
  (brandSplit part).bind (fun m => m[2]?.map trimChars)

/-- Derived product URL: the first detail line containing the product
page marker, with the first occurrence of the marker removed and the
result trimmed. -/
def productUrl (part : ParsedPart) : Option (List Char) :=
  (part.details.find? (fun d => containsSub productPageStr d)).map
    (fun d => trimChars (replaceFirst productPageStr [] d))

/-- Derived video URL: the first detail line containing the
installation video marker, with the first occurrence of the marker
removed and the result trimmed. -/
def videoUrl (part : ParsedPart) : Option (List Char) :=
  (part.details.find? (fun d => containsSub installationVideoStr d)).map
    (fun d => trimChars (replaceFirst installationVideoStr [] d))

/-- Derived playable-video flag: the video URL exists, is nonempty
(JavaScript truthiness), and lacks the not-available marker. -/
def hasVideo (part : ParsedPart) : Bool :=
  match videoUrl part with
  | some v => !v.isEmpty && !containsSub notAvailableStr v
  | none => false

/-- Message role, a tagged variant over user and assistant. -/
inductive Role where
  | user
  | assistant
deriving DecidableEq

/-- One message of the conversation log. Timestamps are opaque and
modelled as natural numbers. -/
structure ChatMessage where
  role : Role
  content : List Char
  timestamp : Nat
  validationScore : Option Nat
deriving DecidableEq

/-- The message-bubble gate: only an assistant message whose raw text
contains a dollar sign, the product page marker, or the retailer
domain is handed to the entity parser. -/
def hasPartInfo (message : ChatMessage) : Bool :=
  (message.role == Role.assistant) &&
  (containsSub dollarStr message.content ||
   containsSub productPageStr message.content ||
   containsSub partselectStr message.content)

/-- Rendering outcome of one message bubble: either the raw text as
plain prose (the parser was not invoked), or the parsed view with the
leading text and the entity list. -/
inductive Rendered where
  | plain (text : List Char)
  | partsView (intro : List Char) (parts : List ParsedPart)
deriving DecidableEq

/-- Rendering decision of the message bubble: the parser runs only
when the gate accepts the message. -/
def renderBubble (message : ChatMessage) : Rendered :=
  if hasPartInfo message then
    Rendered.partsView (parsePartList message.content).2 (parsePartList message.content).1
  else
    Rendered.plain message.content

/-- The mutable state of the chat interface. -/
structure ChatState where
  messages : List ChatMessage
  input : List Char
  loading : Bool
  sessionId : Option (List Char)
  error : Option (List Char)
deriving DecidableEq

/-- Network operations issued to the remote gateway, recorded as a
trace in issue order. -/
inductive ApiCall where
  | createSession
  | chat (message : List Char) (sessionId : Option (List Char))
  | deleteSession (sessionId : List Char)
deriving DecidableEq

/-- A successful response of the chat endpoint. -/
structure ChatResponse where
  response : List Char
  session_id : List Char
  validation_score : Option Nat
  timestamp : Nat
deriving DecidableEq

/-- Content of the synthetic assistant message appended when a chat
call rejects. -/
def sendErrorText : List Char :=
  ("Sorry, I encountered an error. Please try again or rephrase your question.").data

/-- Default banner text for a rejected chat call. -/
def defaultSendFail : List Char :=
  ("Failed to send message. Please try again.").data

/-- Banner text for a rejected chat call: the message carried by the
error response when present and truthy, the default otherwise. -/
def sendFailBanner (errMsg : Option (List Char)) : List Char :=
  match errMsg with
  | some m => if m.isEmpty then defaultSendFail else m
  | none => defaultSendFail

/-- The session id argument sent with a chat request: the stored id
when truthy, absent otherwise (a stored empty string is falsy). -/
def sessionArg (sessionId : Option (List Char)) : Option (List Char) :=
  match sessionId with
  | some s => if s.isEmpty then none else some s
  | none => none

/-- The send operation. The guard drops the attempt when the trimmed
input is empty or a request is already pending. Otherwise the user
message is appended, the input cleared, the pending flag set, the
banner cleared, and one chat call is issued; on success the assistant
message is appended and the stored session id is replaced by the
response session id when they differ; on rejection the banner is set
and a synthetic assistant error message is appended. The pending flag
is cleared on both paths. Returns the new state and the calls issued. -/
def handleSend (now : Nat) (outcome : Except (Option (List Char)) ChatResponse)
    (st : ChatState) : ChatState × List ApiCall :=
  if (trimChars st.input).isEmpty || st.loading then (st, [])
  else
    match outcome with
    | Except.ok resp =>
      (⟨(st.messages ++ [⟨Role.user, st.input, now, none⟩]) ++
          [⟨Role.assistant, resp.response, resp.timestamp, resp.validation_score⟩],
        [], false,
        if st.sessionId == some resp.session_id then st.sessionId else some resp.session_id,
        none⟩,
       [ApiCall.chat st.input (sessionArg st.sessionId)])
    | Except.error e =>
      (⟨(st.messages ++ [⟨Role.user, st.input, now, none⟩]) ++
          [⟨Role.assistant, sendErrorText, now, none⟩],
        [], false, st.sessionId, some (sendFailBanner e)⟩,
       [ApiCall.chat st.input (sessionArg st.sessionId)])

/-- The welcome message seeded by a reset. -/
def resetWelcome (now : Nat) : ChatMessage :=
  ⟨Role.assistant, ("Chat reset! How can I help you find parts today?").data, now, none⟩

/-- The create-session step of a reset: on success the new id is
adopted, the log is replaced with the single reset welcome message,
and the banner is cleared; a rejection is caught silently and leaves
the state unchanged. -/
def resetCreate (now : Nat) (createOutcome : Except Unit (List Char))
    (st : ChatState) (callsSoFar : List ApiCall) : ChatState × List ApiCall :=
  match createOutcome with
  | Except.error _ => (st, callsSoFar ++ [ApiCall.createSession])
  | Except.ok newId =>
    (⟨[resetWelcome now], st.input, st.loading, some newId, none⟩,
     callsSoFar ++ [ApiCall.createSession])

/-- The reset operation. When a truthy session id is held a delete
call is issued first; both the delete and the create step run inside
one exception handler, so a delete rejection aborts the reset before
the create call with no state change. Without a truthy session id the
delete step is skipped. -/
def resetChat (now : Nat) (deleteOutcome : Except Unit Unit)
    (createOutcome : Except Unit (List Char)) (st : ChatState) :
    ChatState × List ApiCall :=
  match st.sessionId with
  | some sid =>
    if sid.isEmpty then resetCreate now createOutcome st []
    else
      match deleteOutcome with
      | Except.error _ => (st, [ApiCall.deleteSession sid])
      | Except.ok _ => resetCreate now createOutcome st [ApiCall.deleteSession sid]
  | none => resetCreate now createOutcome st []

/-- The observable identity of an entity: its name and part number. -/
def nameNum (p : ParsedPart) : List Char × List Char :=
  (p.name, p.partNumber)

/-- The well-formed title and dollar-line pairs of a split message, in
source order: positions whose trimmed line matches the title regex
while the immediately following raw line contains a dollar sign, each
yielding its two captured groups trimmed. -/
def titlePairs : List (List Char) → List (List Char × List Char)
  | [] => []
  | rawLine :: rest =>
    if (trimChars rawLine).isEmpty then titlePairs rest
    else
      match isTitleHere (trimChars rawLine) rest with
      | some g => (trimChars g.1, trimChars g.2) :: titlePairs rest
      | none => titlePairs rest

/-- The first line of a list whose trimmed form is nonempty. -/
def nextNonBlank : List (List Char) → Option (List Char)
  | [] => none
  | l :: rest => if (trimChars l).isEmpty then nextNonBlank rest else some l

/-- Modelled from the claim wording for title classification: a title
line must match the title regex, and the next non-filtered line —
after skipping blank lines — must contain a dollar sign. -/
def claimTitlePairs : List (List Char) → List (List Char × List Char)
  | [] => []
  | rawLine :: rest =>
    if (trimChars rawLine).isEmpty then claimTitlePairs rest
    else
      match titleMatch (trimChars rawLine), nextNonBlank rest with
      | some g, some next =>
        if containsSub dollarStr next then
          (trimChars g.1, trimChars g.2) :: claimTitlePairs rest
        else claimTitlePairs rest
      | _, _ => claimTitlePairs rest

/-- Positional title classification: the trimmed line at the given
index matches the title regex and the immediately following raw line
contains a dollar sign (indices past the end read as empty lines,
which never contain a dollar sign). -/
def titleAt (lines : List (List Char)) (i : Nat) : Option (List Char × List Char) :=
  match titleMatch (trimChars (lines.getD i [])) with
  | some g =>
    if containsSub dollarStr (lines.getD (i + 1) []) then some g else none
  | none => none

/-- The title pairs of a split message read off positionally via
`titleAt`, in index order. -/
def indexTitlePairs (lines : List (List Char)) : List (List Char × List Char) :=
  (List.range lines.length).filterMap
    (fun i => (titleAt lines i).map (fun g => (trimChars g.1, trimChars g.2)))

/-- Modelled from the claim wording for the product URL: the first
detail line that begins with the product page marker, with exactly
that leading marker stripped and the remainder trimmed. -/
def productUrlClaim (part : ParsedPart) : Option (List Char) :=
  (part.details.find? (fun d => isPrefixOfChars productPageStr d)).map
    (fun d => trimChars (d.drop productPageStr.length))

/-- The amended reading of the product URL derivation: the first
detail line containing the product page marker anywhere, with the
first occurrence of the marker removed and the result trimmed. -/
def productUrlAmended (part : ParsedPart) : Option (List Char) :=
  ((part.details.filter (fun d => containsSub productPageStr d)).head?).map
    (fun d => trimChars (replaceFirst productPageStr [] d))

/-- A state for which no chat request is pending and the trimmed
input is nonempty sends; used to exercise the send operation. -/
def readyState : ChatState :=
  ⟨[], ("hi").data, false, none, none⟩

/-- The end-to-end scenario input of the specification. -/
def exC5 : List Char :=
  ("Door Bin (PS123)\n$45.00 | Whirlpool | In Stock\nProduct Page: https://x\nInstallation Video: [Not Available]").data

/-- The single entity parsed from the end-to-end scenario input. -/
def doorBinPart : ParsedPart :=
  ⟨("Door Bin").data, ("PS123").data,
   [("$45.00 | Whirlpool | In Stock").data, ("Product Page: https://x").data]⟩

theorem titleMatch_nil : titleMatch [] = none := rfl

theorem titleAt_cons_succ (l : List Char) (ls : List (List Char)) (i : Nat) :
    titleAt (l :: ls) (i + 1) = titleAt ls i := by
  simp [titleAt, List.getD_cons_succ]

theorem titleAt_zero (l : List Char) (ls : List (List Char)) :
    titleAt (l :: ls) 0 = isTitleHere (trimChars l) ls := by
  cases ls with
  | nil =>
    simp only [titleAt, isTitleHere, List.getD_cons_succ]
    cases h : titleMatch (trimChars l) <;>
      simp [h, containsSub, isPrefixOfChars, dollarStr]
  | cons nx tl =>
    simp only [titleAt, isTitleHere, List.getD_cons_succ, List.getD_cons_zero]
    cases h : titleMatch (trimChars l) <;> simp [h]

theorem titlePairs_cons (l : List Char) (ls : List (List Char)) :
    titlePairs (l :: ls) =
      match isTitleHere (trimChars l) ls with
      | some g => (trimChars g.1, trimChars g.2) :: titlePairs ls
      | none => titlePairs ls := by
  rw [titlePairs]
  by_cases hemp : (trimChars l).isEmpty
  · rw [if_pos hemp]
    have hnil : trimChars l = [] := by
      cases htl : trimChars l with
      | nil => rfl
      | cons a as => rw [htl] at hemp; simp [List.isEmpty] at hemp
    rw [hnil]
    simp [isTitleHere, titleMatch, titleMatchAux]
  · rw [if_neg hemp]

theorem indexTitlePairs_eq (lines : List (List Char)) :
    indexTitlePairs lines = titlePairs lines := by
  induction lines with
  | nil => rfl
  | cons l ls ih =>
    have hfun : ((fun i => (titleAt (l :: ls) i).map (fun g => (trimChars g.1, trimChars g.2))) ∘ Nat.succ)
        = (fun i => (titleAt ls i).map (fun g => (trimChars g.1, trimChars g.2))) := by
      funext i
      simp [Function.comp, titleAt_cons_succ]
    have htail : (List.range ls.length).filterMap
        ((fun i => (titleAt (l :: ls) i).map (fun g => (trimChars g.1, trimChars g.2))) ∘ Nat.succ)
        = titlePairs ls := by
      rw [hfun, ← ih]
      rfl
    unfold indexTitlePairs
    rw [List.length_cons, List.range_succ_eq_map, List.filterMap_cons, List.filterMap_map,
      htail, titlePairs_cons, titleAt_zero]
    cases isTitleHere (trimChars l) ls <;> simp

theorem loop_names (lines : List (List Char)) : ∀ st : ParseState,
    (flushParts (partListLoop lines st)).map nameNum
      = (flushParts st).map nameNum ++ titlePairs lines := by
  induction lines with
  | nil => intro st; simp [partListLoop, titlePairs]
  | cons rawLine rest ih =>
    intro st
    rw [partListLoop, titlePairs]
    split
    · exact ih st
    · split
      · rw [ih]
        simp [flushParts, nameNum, flushCur]
      · cases h : st.currentPart with
        | some p =>
          dsimp only
          split
          · rw [ih]
            simp [flushParts, nameNum, flushCur, h]
          · exact ih st
        | none =>
          dsimp only
          split
          · rw [ih]
            simp [flushParts, flushCur, h]
          · exact ih st

theorem loop_inv (lines : List (List Char)) : ∀ st : ParseState,
    (∀ p ∈ flushParts st, ∀ d ∈ p.details, detailPred d = true) →
    ∀ p ∈ flushParts (partListLoop lines st), ∀ d ∈ p.details, detailPred d = true := by
  induction lines with
  | nil => intro st h; exact h
  | cons rawLine rest ih =>
    intro st h
    rw [partListLoop]
    split
    · exact ih st h
    · split
      · apply ih
        intro p hp d hd
        simp only [flushParts, flushCur, List.mem_append, List.mem_singleton] at hp
        rcases hp with hp | rfl
        · exact h p (by simpa [flushParts, List.mem_append] using hp) d hd
        · simp at hd
      · cases hcur : st.currentPart with
        | some p0 =>
          dsimp only
          split
          · next hdet =>
            apply ih
            intro p hp d hd
            simp only [flushParts, flushCur, List.mem_append, List.mem_singleton] at hp
            rcases hp with hp | rfl
            · exact h p (by simp [flushParts, flushCur, hcur, List.mem_append, hp]) d hd
            · simp only [List.mem_append, List.mem_singleton] at hd
              rcases hd with hd | rfl
              · exact h p0 (by simp [flushParts, flushCur, hcur]) d hd
              · exact hdet
          · exact ih st h
        | none =>
          dsimp only
          split
          · apply ih
            intro p hp d hd
            refine h p ?_ d hd
            simpa [flushParts, flushCur, hcur] using hp
          · exact ih st h

/-- Claim C4: for every input text, the parser returns exactly the
well-formed title and dollar-line pairs of the text as entities, in
source order, each entity carrying the trimmed first and second
captured groups of its title line as name and part number. -/
theorem parser_exactness (content : List Char) :
    ((parsePartList content).1).map nameNum = titlePairs (splitOnChar '\n' content) := by
  have h := loop_names (splitOnChar '\n' content) ⟨[], none, [], true⟩
  simpa [parsePartList, flushParts, flushCur] using h

/-- Claim C2 (amended): a line opens an entity exactly when its
trimmed form matches the title pattern and the immediately following
raw line of the message contains a dollar character; blank lines are
not skipped by the dollar-line check, so a matching line separated
from its dollar line by a blank line is not a title line. Stated as
the positional characterization of the parsed entities. -/
theorem titleLine_classification (content : List Char) :
    ((parsePartList content).1).map nameNum = indexTitlePairs (splitOnChar '\n' content) := by
  rw [indexTitlePairs_eq]
  have h := loop_names (splitOnChar '\n' content) ⟨[], none, [], true⟩
  simpa [parsePartList, flushParts, flushCur] using h

/-- Counterexample to claim C2 as stated: on a message whose title
pattern line is separated from its dollar line by one blank line, the
claimed classification (skipping blank lines) marks the line a title,
yet the parser produces no entity at all. -/
theorem titleLine_blankGap_cex :
    claimTitlePairs (splitOnChar '\n' (("Door Bin (PS123)\n\n$45.00").data))
      = [(("Door Bin").data, ("PS123").data)] ∧
    ((parsePartList (("Door Bin (PS123)\n\n$45.00").data)).1).map nameNum = [] := by
  decide

/-- Claim C9: every detail line retained in any parsed entity contains
a dollar sign, the product page marker, the installation marker, or
the https marker. -/
theorem detailLines_invariant (content : List Char) (p : ParsedPart) (d : List Char)
    (hp : p ∈ (parsePartList content).1) (hd : d ∈ p.details) :
    detailPred d = true := by
  refine loop_inv (splitOnChar '\n' content) ⟨[], none, [], true⟩ ?_ p ?_ d hd
  · intro q hq
    simp [flushParts, flushCur] at hq
  · simpa [parsePartList, flushParts, flushCur] using hp

/-- Witness for claim C9 at a concrete parse of the end-to-end input. -/
theorem detailLines_invariant_witness :
    doorBinPart ∈ (parsePartList exC5).1 ∧
    detailPred (("$45.00 | Whirlpool | In Stock").data) = true :=
  ⟨by decide, detailLines_invariant exC5 doorBinPart _ (by decide) (by decide)⟩

/-- Claim C5: the end-to-end scenario input parses to exactly one
entity named Door Bin with part number PS123, and the derived fields
are the stated price, brand, availability and product URL, with no
video URL and a false playable-video flag. -/
theorem endToEnd_scenario :
    (parsePartList exC5).1 = [doorBinPart] ∧
    price doorBinPart = some (("$45.00").data) ∧
    brand doorBinPart = some (("Whirlpool").data) ∧
    availability doorBinPart = some (("In Stock").data) ∧
    productUrl doorBinPart = some (("https://x").data) ∧
    videoUrl doorBinPart = none ∧
    hasVideo doorBinPart = false := by
  decide

/-- Counterexample to claim C6 as stated: a detail line holding the
product page marker only in its interior is still selected by the
code (with the interior marker removed), while the claimed
begins-with selection would select nothing for this entity. -/
theorem productUrl_interior_cex :
    (parsePartList (("Widget (PS9)\n$5\nSee Product Page: https://x").data)).1
      = [⟨("Widget").data, ("PS9").data, [("$5").data, ("See Product Page: https://x").data]⟩] ∧
    productUrl ⟨("Widget").data, ("PS9").data, [("$5").data, ("See Product Page: https://x").data]⟩
      = some (("See  https://x").data) ∧
    productUrlClaim ⟨("Widget").data, ("PS9").data, [("$5").data, ("See Product Page: https://x").data]⟩
      = none := by
  decide

/-- Claim C6 (amended): for every parsed entity the derived product
URL comes from the first detail line containing the product page
marker anywhere, with the first occurrence of the marker removed and
the result trimmed; a line holding the marker only in its interior is
selected too. -/
theorem productUrl_amended_holds (part : ParsedPart) :
    productUrl part = productUrlAmended part := by
  simp [productUrl, productUrlAmended, List.filter_head?]

/-- Claim C7: an assistant message whose raw text contains no dollar
sign, no product page marker and no retailer-domain substring is
rendered verbatim as plain text and the entity parser is never
invoked, whatever the text otherwise contains. -/
theorem contentGating_plain (m : ChatMessage)
    (h1 : containsSub dollarStr m.content = false)
    (h2 : containsSub productPageStr m.content = false)
    (h3 : containsSub partselectStr m.content = false) :
    renderBubble m = Rendered.plain m.content := by
  simp [renderBubble, hasPartInfo, h1, h2, h3]

/-- Witness for claim C7 on a message containing a title-pattern line
but none of the gating substrings. -/
theorem contentGating_plain_witness :
    containsSub dollarStr (("Door Bin (PS123)\nhello there").data) = false ∧
    renderBubble ⟨Role.assistant, ("Door Bin (PS123)\nhello there").data, 0, none⟩
      = Rendered.plain (("Door Bin (PS123)\nhello there").data) :=
  ⟨by decide, contentGating_plain _ (by decide) (by decide) (by decide)⟩

/-- Claim C3: invoking send while a chat request is pending is a
no-op: the state is unchanged and no network call is issued. -/
theorem handleSend_pending_noop (now : Nat) (outcome : Except (Option (List Char)) ChatResponse)
    (st : ChatState) (h : st.loading = true) :
    handleSend now outcome st = (st, []) := by
  simp [handleSend, h]

/-- Witness for claim C3 at a concrete pending state. -/
theorem handleSend_pending_noop_witness :
    (⟨[], ("hi").data, true, none, none⟩ : ChatState).loading = true ∧
    handleSend 0 (Except.error none) ⟨[], ("hi").data, true, none, none⟩
      = (⟨[], ("hi").data, true, none, none⟩, []) :=
  ⟨rfl, handleSend_pending_noop 0 (Except.error none) _ rfl⟩

/-- Claim C8: a send whose chat call rejects appends the user message
followed by exactly one synthetic assistant error message, preserves
all prior messages, sets the error banner, and clears the pending
flag. -/
theorem handleSend_error_recovery (now : Nat) (e : Option (List Char)) (st : ChatState)
    (hinput : (trimChars st.input).isEmpty = false) (hload : st.loading = false) :
    handleSend now (Except.error e) st =
      (⟨st.messages ++ [⟨Role.user, st.input, now, none⟩, ⟨Role.assistant, sendErrorText, now, none⟩],
        [], false, st.sessionId, some (sendFailBanner e)⟩,
       [ApiCall.chat st.input (sessionArg st.sessionId)]) := by
  simp [handleSend, hinput, hload]

/-- Witness for claim C8 at a concrete ready state. -/
theorem handleSend_error_recovery_witness :
    (trimChars readyState.input).isEmpty = false ∧
    handleSend 3 (Except.error none) readyState
      = (⟨[⟨Role.user, ("hi").data, 3, none⟩, ⟨Role.assistant, sendErrorText, 3, none⟩],
          [], false, none, some defaultSendFail⟩,
         [ApiCall.chat (("hi").data) none]) := by
  refine ⟨by decide, ?_⟩
  have h := handleSend_error_recovery 3 none readyState (by decide) rfl
  simpa [readyState, sendFailBanner, sessionArg] using h

/-- Claim C10: after every successful chat call the stored session id
equals the session id of the response, whether or not it differs from
the id sent with the request. -/
theorem sessionId_adoption (now : Nat) (resp : ChatResponse) (st : ChatState)
    (hinput : (trimChars st.input).isEmpty = false) (hload : st.loading = false) :
    ((handleSend now (Except.ok resp) st).1).sessionId = some resp.session_id := by
  simp [handleSend, hinput, hload]

/-- Witness for claim C10 at a concrete ready state with a response
carrying a session id that differs from the stored one. -/
theorem sessionId_adoption_witness :
    (trimChars readyState.input).isEmpty = false ∧
    ((handleSend 7 (Except.ok ⟨("ok").data, ("sess2").data, none, 7⟩) readyState).1).sessionId
      = some (("sess2").data) :=
  ⟨by decide, sessionId_adoption 7 ⟨("ok").data, ("sess2").data, none, 7⟩ readyState (by decide) rfl⟩

/-- Counterexample to claim C1 as stated: with a session id held and a
rejecting delete call, the reset issues only the delete call — no
create call follows — and the message log of two messages is left in
place rather than replaced by one fresh welcome message. -/
theorem resetChat_deleteFail_cex :
    resetChat 9 (Except.error ()) (Except.ok (("t").data))
        ⟨[resetWelcome 0, ⟨Role.user, ("x").data, 1, none⟩], [], false, some (("s").data), none⟩
      = (⟨[resetWelcome 0, ⟨Role.user, ("x").data, 1, none⟩], [], false, some (("s").data), none⟩,
         [ApiCall.deleteSession (("s").data)]) ∧
    (⟨[resetWelcome 0, ⟨Role.user, ("x").data, 1, none⟩], [], false, some (("s").data), none⟩ : ChatState).messages.length = 2 := by
  decide

/-- Claim C1 (amended): invoking reset while a truthy session id is
held always issues a delete call first; if the delete call rejects
the reset aborts with no create call and no state change, while if
the delete succeeds a create call follows and, on its success, the
log is replaced with exactly one fresh welcome message, the new
session id is adopted, and the banner is cleared. -/
theorem resetChat_spec (now : Nat) (st : ChatState) (sid newId : List Char)
    (hsid : st.sessionId = some sid) (hne : sid.isEmpty = false) :
    (∀ co, resetChat now (Except.error ()) co st = (st, [ApiCall.deleteSession sid])) ∧
    resetChat now (Except.ok ()) (Except.ok newId) st =
      (⟨[resetWelcome now], st.input, st.loading, some newId, none⟩,
       [ApiCall.deleteSession sid, ApiCall.createSession]) := by
  constructor
  · intro co
    simp [resetChat, hsid, hne]
  · simp [resetChat, resetCreate, hsid, hne]

/-- Witness for claim C1 (amended) at a concrete active state. -/
theorem resetChat_spec_witness :
    (⟨[resetWelcome 0, ⟨Role.user, ("x").data, 1, none⟩], [], false, some (("s").data), none⟩ : ChatState).sessionId
        = some (("s").data) ∧
    (("s").data).isEmpty = false ∧
    resetChat 9 (Except.ok ()) (Except.ok (("t").data))
        ⟨[resetWelcome 0, ⟨Role.user, ("x").data, 1, none⟩], [], false, some (("s").data), none⟩
      = (⟨[resetWelcome 9], [], false, some (("t").data), none⟩,
         [ApiCall.deleteSession (("s").data), ApiCall.createSession]) :=
  ⟨rfl, rfl, (resetChat_spec 9 _ (("s").data) (("t").data) rfl rfl).2⟩

end PartSelect
